import Mathlib

/-!
Verification development for the strace JSON transformer
(`src/strace_parser/json_transformer.py`).

The transformer is a lark `Transformer`: each grammar rule has a handler
that receives the list of already-converted children and returns a
Python value (str, int, float, list, dict, or a lark `Token`).  We embed
that dynamic value domain as the inductive type `PyVal` and each handler
as a Lean function `List PyVal → Except String PyVal` (the `Except`
models Python exceptions: `IndexError`, `KeyError`, `TypeError`,
`ValueError`).  Handlers that cannot raise are plain functions.

Python floats (timestamps) are carried as rationals; the transformer
never inspects or formats a float value, it only stores it, so their
numeric representation is irrelevant to every embedded operation.
-/

namespace StraceParser

/-- The dynamic (Python) value domain of the transformer.  A lark
`Token` is a `str` subclass carrying a terminal type tag; dict keys in
this program are always strings (every key the transformer ever uses is
a string literal, `str(...)`, or a `kv`-produced key). -/
inductive PyVal where
  | none : PyVal
  | bool : Bool → PyVal
  | int : Int → PyVal
  | float : Rat → PyVal
  | str : String → PyVal
  | token : String → String → PyVal
  | list : List PyVal → PyVal
  | dict : List (String × PyVal) → PyVal

/-- Python `d.get(k)` / `d[k]` lookup on an insertion-ordered dict. -/
def dictGet : List (String × PyVal) → String → Option PyVal
  | [], _ => Option.none
  | (k, v) :: rest, key => if k = key then Option.some v else dictGet rest key

/-- Python `d[k] = v` on an insertion-ordered dict: a present key keeps
its position and gets the new value, an absent key is appended. -/
def dictSet : List (String × PyVal) → String → PyVal → List (String × PyVal)
  | [], key, v => [(key, v)]
  | (k, w) :: rest, key, v =>
    if k = key then (k, v) :: rest else (k, w) :: dictSet rest key v

/-- Field lookup on a transformer output record (a Python dict). -/
def getField : PyVal → String → Option PyVal
  | .dict kvs, key => dictGet kvs key
  | _, _ => Option.none

/-- Python `x == lit` where `lit` is a string literal: true only for a
`str` (or `Token`, a `str` subclass) with the same text. -/
def pyEqStr : PyVal → String → Bool
  | .str s, t => s = t
  | .token _ s, t => s = t
  | _, _ => false

/-- Python `x is None`. -/
def isNone : PyVal → Bool
  | .none => true
  | _ => false

/-- Python single-quoted `repr` of a string.  The quote-choice and
escaping rules of `repr` for exotic characters are not modelled; no
transformer path compared by a claim applies `repr` to such a string. -/
def reprQuoted (s : String) : String := "\x27" ++ s ++ "\x27"

mutual

/-- Python `str(x)`.  For containers this is `repr`; Python float
formatting is not modelled (no transformer path applies `str` to a
float). -/
def pyStr : PyVal → String
  | .none => "None"
  | .bool true => "True"
  | .bool false => "False"
  | .int n => toString n
  | .float q => toString q
  | .str s => s
  | .token _ s => s
  | .list xs => "[" ++ String.intercalate ", " (pyReprList xs) ++ "]"
  | .dict kvs => "\x7b" ++ String.intercalate ", " (pyReprDict kvs) ++ "\x7d"

/-- Python `repr(x)` (strings quoted, lark `Token(type, text)` form). -/
def pyRepr : PyVal → String
  | .none => "None"
  | .bool true => "True"
  | .bool false => "False"
  | .int n => toString n
  | .float q => toString q
  | .str s => reprQuoted s
  | .token ty s => "Token(" ++ reprQuoted ty ++ ", " ++ reprQuoted s ++ ")"
  | .list xs => "[" ++ String.intercalate ", " (pyReprList xs) ++ "]"
  | .dict kvs => "\x7b" ++ String.intercalate ", " (pyReprDict kvs) ++ "\x7d"

def pyReprList : List PyVal → List String
  | [] => []
  | x :: xs => pyRepr x :: pyReprList xs

def pyReprDict : List (String × PyVal) → List String
  | [] => []
  | (k, v) :: kvs => (reprQuoted k ++ ": " ++ pyRepr v) :: pyReprDict kvs

end

/-! ## The C-string decoder (`_decode_c_string`)

The source does

  if len(s) >= 2 and s[0] == '"' and s[-1] == '"': s = s[1:-1]
  try: return s.encode("latin1").decode("unicode_escape")
  except Exception: return original

`encode("latin1")` succeeds iff every character is ≤ U+00FF; the bytes
are then decoded by CPython's `unicode_escape` codec, whose escape set
is: line continuation `\<newline>`, `\\`, `\'`, `\"`, `\a`, `\b`, `\f`,
`\n`, `\r`, `\t`, `\v`, octal `\ooo` (one to three digits, value up to
0o777), `\xhh` (exactly two hex digits, else error), `\uhhhh`,
`\Uhhhhhhhh` (error above U+10FFFF), and `\N` followed by a braced
Unicode character name looked up in the Unicode database; any other
`\c` is left as the two literal characters.  Any error aborts the whole
decode (strict error handler), which the `except` turns into returning
the original input.

We model the Unicode name database as a parameter
`u : String → Option Nat` (name to code point).  A successful `\uhhhh`
or `\N` escape whose value is a lone surrogate is representable in a
Python `str` but not in a Lean `Char`; the model maps it to a decode
error.  No transformer input and no claim involves lone surrogates. -/

def isOctDigit (c : Char) : Bool := decide ('0' ≤ c) && decide (c ≤ '7')

def octVal (c : Char) : Nat := c.toNat - '0'.toNat

def isHexDigit (c : Char) : Bool :=
  (decide ('0' ≤ c) && decide (c ≤ '9')) ||
  (decide ('a' ≤ c) && decide (c ≤ 'f')) ||
  (decide ('A' ≤ c) && decide (c ≤ 'F'))

def hexVal (c : Char) : Nat :=
  if decide ('0' ≤ c) && decide (c ≤ '9') then c.toNat - '0'.toNat
  else if decide ('a' ≤ c) && decide (c ≤ 'f') then c.toNat - 'a'.toNat + 10
  else c.toNat - 'A'.toNat + 10

/-- A code point representable as a Lean `Char` (no lone surrogates). -/
def isScalar (v : Nat) : Bool :=
  decide (v < 0xd800) || (decide (0xdfff < v) && decide (v < 0x110000))

/-- Parse exactly `n` hex digits (most significant first), returning
the value and the remaining characters; `Option.none` when fewer than
`n` hex digits are available (CPython: "truncated \xXX escape"). -/
def hexN : Nat → Nat → List Char → Option (Nat × List Char)
  | 0, acc, l => Option.some (acc, l)
  | _ + 1, _, [] => Option.none
  | n + 1, acc, c :: l =>
    if isHexDigit c then hexN n (16 * acc + hexVal c) l else Option.none

theorem hexN_length : ∀ n acc l v r, hexN n acc l = Option.some (v, r) →
    r.length ≤ l.length := by
  intro n
  induction n with
  | zero =>
    intro acc l v r h
    simp [hexN] at h
    simp [h.2]
  | succ m ih =>
    intro acc l v r h
    match l with
    | [] => simp [hexN] at h
    | c :: l' =>
      rw [hexN] at h
      by_cases hc : isHexDigit c
      · rw [if_pos hc] at h
        exact Nat.le_trans (ih _ _ _ _ h) (Nat.le_succ _)
      · rw [if_neg hc] at h
        exact absurd h (by simp)

/-- Octal escape reading: the leading digit `e` already seen, consume
up to two further octal digits (CPython reads one to three digits). -/
def octRead (e : Char) (l : List Char) : Nat × List Char :=
  match l with
  | d2 :: r2 =>
    if isOctDigit d2 then
      match r2 with
      | d3 :: r3 =>
        if isOctDigit d3 then (64 * octVal e + 8 * octVal d2 + octVal d3, r3)
        else (8 * octVal e + octVal d2, r2)
      | [] => (8 * octVal e + octVal d2, [])
    else (octVal e, l)
  | [] => (octVal e, [])

theorem octRead_length (e : Char) (l : List Char) : (octRead e l).2.length ≤ l.length := by
  match l with
  | [] => simp [octRead]
  | [d2] => by_cases h2 : isOctDigit d2 <;> simp [octRead, h2]
  | d2 :: d3 :: r3 =>
    by_cases h2 : isOctDigit d2 <;> by_cases h3 : isOctDigit d3 <;>
      simp [octRead, h2, h3] <;> omega

/-- Walking state of the `unicode_escape` decoder: either plain
scanning, or inside the braced name of a `\N` escape (accumulated
characters kept in reverse). -/
inductive EscState where
  | plain : EscState
  | named : List Char → EscState

/-- Prepend a decoded character to a pending decode result (outer
`Option`: fuel exhaustion; inner `Option`: `UnicodeDecodeError`). -/
def emitc (ch : Char) (r : Option (Option (List Char))) : Option (Option (List Char)) :=
  r.map (fun o => o.map (ch :: ·))

/-- CPython `unicode_escape` decoding of a latin1-encodable string, one
escape at a time.  The decode itself is total on finite input (every
step consumes at least one character); Lean only sees that through the
`fuel` argument, and `escF_fuel` below proves the fuel-exhaustion
branch (`Option.none` of the outer `Option`) unreachable for the fuel
`escDecodeM` passes.  The inner `Option.none` is a
`UnicodeDecodeError`, which the caller turns into the fallback. -/
def escF (u : String → Option Nat) : Nat → EscState → List Char → Option (Option (List Char))
  | 0, _, _ => Option.none
  | _ + 1, .plain, [] => Option.some (Option.some [])
  | f + 1, .plain, c :: rest =>
    if c = '\\' then
      match rest with
      | [] => Option.some Option.none
      | e :: r =>
        if e = '\n' then escF u f .plain r
        else if e = '\\' then emitc '\\' (escF u f .plain r)
        else if e = '\x27' then emitc '\x27' (escF u f .plain r)
        else if e = '"' then emitc '"' (escF u f .plain r)
        else if e = 'b' then emitc '\x08' (escF u f .plain r)
        else if e = 'f' then emitc '\x0c' (escF u f .plain r)
        else if e = 't' then emitc '\t' (escF u f .plain r)
        else if e = 'n' then emitc '\n' (escF u f .plain r)
        else if e = 'r' then emitc '\x0d' (escF u f .plain r)
        else if e = 'v' then emitc '\x0b' (escF u f .plain r)
        else if e = 'a' then emitc '\x07' (escF u f .plain r)
        else if isOctDigit e then
          emitc (Char.ofNat (octRead e r).1) (escF u f .plain (octRead e r).2)
        else if e = 'x' then
          match hexN 2 0 r with
          | Option.some (v, r2) => emitc (Char.ofNat v) (escF u f .plain r2)
          | Option.none => Option.some Option.none
        else if e = 'u' then
          match hexN 4 0 r with
          | Option.some (v, r2) =>
            if isScalar v then emitc (Char.ofNat v) (escF u f .plain r2)
            else Option.some Option.none
          | Option.none => Option.some Option.none
        else if e = 'U' then
          match hexN 8 0 r with
          | Option.some (v, r2) =>
            if isScalar v then emitc (Char.ofNat v) (escF u f .plain r2)
            else Option.some Option.none
          | Option.none => Option.some Option.none
        else if e = 'N' then
          match r with
          | '\x7b' :: r2 => escF u f (.named []) r2
          | _ => Option.some Option.none
        else emitc '\\' (emitc e (escF u f .plain r))
    else emitc c (escF u f .plain rest)
  | _ + 1, .named _, [] => Option.some Option.none
  | f + 1, .named acc, c :: rest =>
    if c = '\x7d' then
      match u (String.mk acc.reverse) with
      | Option.some v =>
        if isScalar v then emitc (Char.ofNat v) (escF u f .plain rest)
        else Option.some Option.none
      | Option.none => Option.some Option.none
    else escF u f (.named (c :: acc)) rest

theorem emitc_isSome (ch : Char) (r : Option (Option (List Char))) :
    (emitc ch r).isSome = r.isSome := by
  cases r <;> simp [emitc]

/-- Every decode step consumes at least one input character, so fuel
exceeding the input length never runs out. -/
theorem escF_fuel (u : String → Option Nat) :
    ∀ f st l, l.length < f → (escF u f st l).isSome := by
  intro f
  induction f with
  | zero => intro st l h; omega
  | succ f ih =>
    intro st l h
    match st, l with
    | .plain, [] => simp [escF]
    | .plain, [c] =>
      simp only [escF]
      by_cases hc : c = '\\'
      · simp [hc]
      · rw [if_neg hc, emitc_isSome]
        exact ih _ _ (by simp at h ⊢; omega)
    | .plain, c :: e :: r =>
      have hr : r.length < f := by simp at h; omega
      simp only [escF]
      by_cases hc : c = '\\'
      · rw [if_pos hc]
        by_cases h1 : e = '\n'
        · rw [if_pos h1]; exact ih _ _ hr
        rw [if_neg h1]
        by_cases h2 : e = '\\'
        · rw [if_pos h2, emitc_isSome]; exact ih _ _ hr
        rw [if_neg h2]
        by_cases h3 : e = '\x27'
        · rw [if_pos h3, emitc_isSome]; exact ih _ _ hr
        rw [if_neg h3]
        by_cases h4 : e = '"'
        · rw [if_pos h4, emitc_isSome]; exact ih _ _ hr
        rw [if_neg h4]
        by_cases h5 : e = 'b'
        · rw [if_pos h5, emitc_isSome]; exact ih _ _ hr
        rw [if_neg h5]
        by_cases h6 : e = 'f'
        · rw [if_pos h6, emitc_isSome]; exact ih _ _ hr
        rw [if_neg h6]
        by_cases h7 : e = 't'
        · rw [if_pos h7, emitc_isSome]; exact ih _ _ hr
        rw [if_neg h7]
        by_cases h8 : e = 'n'
        · rw [if_pos h8, emitc_isSome]; exact ih _ _ hr
        rw [if_neg h8]
        by_cases h9 : e = 'r'
        · rw [if_pos h9, emitc_isSome]; exact ih _ _ hr
        rw [if_neg h9]
        by_cases h10 : e = 'v'
        · rw [if_pos h10, emitc_isSome]; exact ih _ _ hr
        rw [if_neg h10]
        by_cases h11 : e = 'a'
        · rw [if_pos h11, emitc_isSome]; exact ih _ _ hr
        rw [if_neg h11]
        by_cases h12 : isOctDigit e
        · rw [if_pos h12, emitc_isSome]
          exact ih _ _ (Nat.lt_of_le_of_lt (octRead_length e r) hr)
        rw [if_neg h12]
        by_cases h13 : e = 'x'
        · rw [if_pos h13]
          rcases hx : hexN 2 0 r with _ | ⟨v, r2⟩
          · simp [hx]
          · simp only [hx, emitc_isSome]
            exact ih _ _ (Nat.lt_of_le_of_lt (hexN_length _ _ _ _ _ hx) hr)
        rw [if_neg h13]
        by_cases h14 : e = 'u'
        · rw [if_pos h14]
          rcases hx : hexN 4 0 r with _ | ⟨v, r2⟩
          · simp [hx]
          · simp only [hx]
            by_cases hs : isScalar v
            · rw [if_pos hs, emitc_isSome]
              exact ih _ _ (Nat.lt_of_le_of_lt (hexN_length _ _ _ _ _ hx) hr)
            · rw [if_neg hs]; simp
        rw [if_neg h14]
        by_cases h15 : e = 'U'
        · rw [if_pos h15]
          rcases hx : hexN 8 0 r with _ | ⟨v, r2⟩
          · simp [hx]
          · simp only [hx]
            by_cases hs : isScalar v
            · rw [if_pos hs, emitc_isSome]
              exact ih _ _ (Nat.lt_of_le_of_lt (hexN_length _ _ _ _ _ hx) hr)
            · rw [if_neg hs]; simp
        rw [if_neg h15]
        by_cases h16 : e = 'N'
        · rw [if_pos h16]
          rcases r with _ | ⟨c1, r2⟩
          · simp
          · by_cases hb : c1 = '\x7b'
            · subst hb
              exact ih _ _ (by simp at hr ⊢; omega)
            · split
              · rename_i q heq
                injection heq with hh1 hh2
                exact absurd hh1 hb
              · simp
        rw [if_neg h16]
        rw [emitc_isSome, emitc_isSome]
        exact ih _ _ hr
      · rw [if_neg hc, emitc_isSome]
        exact ih _ _ (by simp at h ⊢; omega)
    | .named acc, [] => simp [escF]
    | .named acc, c :: rest =>
      have hr : rest.length < f := by simp at h; omega
      simp only [escF]
      by_cases hc : c = '\x7d'
      · rw [if_pos hc]
        repeat' split
        all_goals try simp only [emitc_isSome]
        all_goals try simp
        all_goals try exact ih _ _ hr
      · rw [if_neg hc]
        exact ih _ _ hr
/-- The `unicode_escape` walk on a character list, with the fuel
instantiated to more than the input length (ample by `escF_fuel`). -/
def escDecodeM (u : String → Option Nat) (st : EscState) (l : List Char) :
    Option (List Char) :=
  (escF u (l.length + 1) st l).getD Option.none

/-- `s.encode("latin1").decode("unicode_escape")` as an `Option`:
fails when some character exceeds U+00FF (latin1 error) or when the
escape walk errors. -/
def pyUnicodeEscape (u : String → Option Nat) (s : String) : Option String :=
  if s.toList.all (fun c => decide (c.toNat ≤ 255)) then
    (escDecodeM u .plain s.toList).map String.mk
  else Option.none

/-- The quote-stripping step: one leading and one trailing double quote
removed when the string both starts and ends with one and has length at
least 2 (`s[0] == '"' and s[-1] == '"'`). -/
def stripQuotes (s : String) : String :=
  if 2 ≤ s.length ∧ s.front = '"' ∧ s.back = '"' then (s.drop 1).dropRight 1 else s

/-- `_decode_c_string` from the source: strip optional surrounding
quotes, decode escapes, and on any failure return the original input
(saved before the stripping) unchanged. -/
def _decode_c_string (u : String → Option Nat) (s : String) : String :=
  match pyUnicodeEscape u (stripQuotes s) with
  | Option.some r => r
  | Option.none => s

/-- An empty Unicode name database (no claim depends on `\N` names). -/
def noNames : String → Option Nat := fun _ => Option.none

/-! ## The resumed-tag pattern (`_RESUMED_RE`)

The source compiles `re.compile(r"<\.\.\.\s+([a-zA-Z0-9_]+)\s+resumed>")`
and applies `.match` (anchored at the start, trailing text allowed).
The character classes `\s` and `[a-zA-Z0-9_]` are disjoint and each
quantifier is followed by a token outside its own class, so greedy
matching with backtracking coincides with maximal munch: after the
literal `<...`, take the maximal whitespace run (non-empty), then the
maximal word-character run (non-empty, the captured group), then a
maximal whitespace run (non-empty), then the literal `resumed>`. -/

/-- Python `re` class `\s` for `str` patterns (Unicode whitespace, by
code point: ASCII whitespace, the file/group/record/unit separators,
NEL, NBSP, OGHAM SPACE MARK, the U+2000 block, LINE and PARAGRAPH
SEPARATOR, NARROW NBSP, MEDIUM MATHEMATICAL SPACE, IDEOGRAPHIC
SPACE). -/
def isPySpace (c : Char) : Bool :=
  let n := c.toNat
  n = 0x20 || n = 0x9 || n = 0xa || n = 0xb || n = 0xc || n = 0xd ||
  n = 0x1c || n = 0x1d || n = 0x1e || n = 0x1f || n = 0x85 || n = 0xa0 ||
  n = 0x1680 || (decide (0x2000 ≤ n) && decide (n ≤ 0x200a)) ||
  n = 0x2028 || n = 0x2029 || n = 0x202f || n = 0x205f || n = 0x3000

/-- The regex class `[a-zA-Z0-9_]`. -/
def isWordChar (c : Char) : Bool :=
  (decide ('a' ≤ c) && decide (c ≤ 'z')) || (decide ('A' ≤ c) && decide (c ≤ 'Z')) ||
  (decide ('0' ≤ c) && decide (c ≤ '9')) || c = '_'

/-- `_RESUMED_RE.match(tag)`, returning the captured group. -/
def matchResumed (tag : String) : Option String :=
  match tag.toList with
  | '<' :: '.' :: '.' :: '.' :: rest =>
    let s1 := rest.takeWhile isPySpace
    let r1 := rest.dropWhile isPySpace
    if s1.isEmpty then Option.none else
    let nm := r1.takeWhile isWordChar
    let r2 := r1.dropWhile isWordChar
    if nm.isEmpty then Option.none else
    let s2 := r2.takeWhile isPySpace
    let r3 := r2.dropWhile isPySpace
    if s2.isEmpty then Option.none else
    match r3 with
    | 'r' :: 'e' :: 's' :: 'u' :: 'm' :: 'e' :: 'd' :: '>' :: _ => Option.some (String.mk nm)
    | _ => Option.none
  | _ => Option.none

example : matchResumed "<... read resumed>" = Option.some "read" := by decide
example : matchResumed "<... resumed>" = Option.none := by decide
example : matchResumed "<... rt_sigprocmask resumed>NULL, 8) = 0" =
    Option.some "rt_sigprocmask" := by decide

/-! ## The transformer handlers

Each handler below is `JsonTransformer.<rule>` from the source, taking
the list of already-converted children.  `Except.error` models a raised
Python exception (the message names the exception type). -/

/-- `start`: `return children`. -/
def start (children : List PyVal) : PyVal := .list children

/-- `line`: unpack `pid, ts, body` (3 children) or `ts, body`
(2 children, `pid = None`), require the body to be a dict, store the
timestamp and, when present, the pid into it. -/
def line (children : List PyVal) : Except String PyVal :=
  match children with
  | [p, ts, body] =>
    match body with
    | .dict kvs =>
      let m := dictSet kvs "timestamp" ts
      .ok (.dict (if isNone p then m else dictSet m "pid" p))
    | _ => .error "TypeError: Body transformer did not return dict"
  | [ts, body] =>
    match body with
    | .dict kvs => .ok (.dict (dictSet kvs "timestamp" ts))
    | _ => .error "TypeError: Body transformer did not return dict"
  | _ => .error "ValueError: unpacking"

/-- `syscall`: `children[0]` is the name; `children[1]` is the argument
list only when it is a Python `list`, otherwise the arguments default
to empty and `children[1]` (if any) is the result; a possible trailing
duration child is ignored. -/
def syscall (children : List PyVal) : Except String PyVal :=
  match children with
  | [] => .error "IndexError: list index out of range"
  | name :: rest =>
    let ar : PyVal × PyVal :=
      match rest with
      | .list l :: rest2 => (.list l, rest2.headD .none)
      | x :: _ => (.list [], x)
      | [] => (.list [], .none)
    .ok (.dict [("type", .str "syscall"), ("status", .str "finished"), ("name", name),
                ("args", ar.1), ("result", ar.2)])

/-- `syscall_name`: `str(children[0])`. -/
def syscall_name (children : List PyVal) : Except String PyVal :=
  match children with
  | c :: _ => .ok (.str (pyStr c))
  | [] => .error "IndexError: list index out of range"

/-- `syscall_args`: `return children`. -/
def syscall_args (children : List PyVal) : PyVal := .list children

/-- `syscall_result`: `_decode_c_string(str(children[0]))`. -/
def syscall_result (u : String → Option Nat) (children : List PyVal) :
    Except String PyVal :=
  match children with
  | c :: _ => .ok (.str (_decode_c_string u (pyStr c)))
  | [] => .error "IndexError: list index out of range"

/-- `unfinished_syscall`: `children = [name]` or `[name, args]`. -/
def unfinished_syscall (children : List PyVal) : Except String PyVal :=
  match children with
  | [] => .error "IndexError: list index out of range"
  | [n] => .ok (.dict [("name", n), ("args", .list [])])
  | n :: a :: _ => .ok (.dict [("name", n), ("args", a)])

/-- `unfinished_line`: reads `call = children[0]` (a dict from
`unfinished_syscall`) and the tag `children[1]`; the record's result is
always `None` and its status `"unfinished"`. -/
def unfinished_line (children : List PyVal) : Except String PyVal :=
  match children with
  | c0 :: _ :: _ =>
    match c0 with
    | .dict kvs =>
      match dictGet kvs "name", dictGet kvs "args" with
      | Option.some n, Option.some a =>
        .ok (.dict [("type", .str "syscall"), ("status", .str "unfinished"),
                    ("name", n), ("args", a), ("result", .none)])
      | _, _ => .error "KeyError"
    | _ => .error "TypeError: not subscriptable"
  | _ => .error "IndexError: list index out of range"

/-- `resumed_line`: recover the name from the tag via `_RESUMED_RE`
(`None` when it does not match); the tail `children[1]` (defaulting to
`[]`) is `[args, result]` when its first element is a list, else
`[result]`. -/
def resumed_line (children : List PyVal) : Except String PyVal :=
  match children with
  | [] => .error "IndexError: list index out of range"
  | c0 :: rest =>
    let name : PyVal :=
      match matchResumed (pyStr c0) with
      | Option.some n => .str n
      | Option.none => .none
    let tail : PyVal := rest.headD (.list [])
    let ar : PyVal × PyVal :=
      match tail with
      | .list (t0 :: ts) =>
        match t0 with
        | .list l => (.list l, ts.headD .none)
        | x => (.list [], x)
      | _ => (.list [], .none)
    .ok (.dict [("type", .str "syscall"), ("status", .str "resumed"), ("name", name),
                ("args", ar.1), ("result", ar.2)])

/-- `signal_line`: `sig = str(children[0])`, `info = children[1]`;
note the signal name is stored under the key `"name"`. -/
def signal_line (children : List PyVal) : Except String PyVal :=
  match children with
  | c0 :: c1 :: _ =>
    .ok (.dict [("type", .str "signal"), ("name", .str (pyStr c0)),
                ("status", .str "signal"), ("info", c1)])
  | _ => .error "IndexError: list index out of range"

/-- `alert_body`: join the stringified children with spaces. -/
def alert_body (children : List PyVal) : PyVal :=
  .dict [("type", .str "alert"), ("status", .str "alert"),
         ("result", .str (String.intercalate " " (children.map pyStr)))]

/-- Whether a struct field is the `f.get("type") == "key_value"` case
of `braced` (a dict whose `"type"` entry equals `"key_value"`). -/
def isKVCarrier (f : PyVal) : Bool :=
  match f with
  | .dict kvs =>
    match dictGet kvs "type" with
    | Option.some v => pyEqStr v "key_value"
    | Option.none => false
  | _ => false

/-- The body of `braced`'s `for f in fields` loop over one field,
threading the accumulated fields map and truncated flag.  A key-value
carrier lacking a `"key"` or `"value"` entry raises `KeyError`; a
carrier whose key is not a string cannot arise in the transformer (all
`kv` keys are `str(...)`) and is modelled as an error. -/
def bracedStep (acc : List (String × PyVal) × Bool) (f : PyVal) :
    Except String (List (String × PyVal) × Bool) :=
  if pyEqStr f "..." then .ok (acc.1, true)
  else if isKVCarrier f then
    match f with
    | .dict kvs =>
      match dictGet kvs "key" with
      | Option.some (.str k) =>
        match dictGet kvs "value" with
        | Option.some v => .ok (dictSet acc.1 k v, acc.2)
        | Option.none => .error "KeyError: value"
      | Option.some _ => .error "unsupported non-string key"
      | Option.none => .error "KeyError: key"
    | _ => .error "unreachable"
  else .ok (dictSet acc.1 (pyStr f) f, acc.2)

def bracedFold (acc : List (String × PyVal) × Bool) :
    List PyVal → Except String (List (String × PyVal) × Bool)
  | [] => .ok acc
  | f :: fs => do bracedFold (← bracedStep acc f) fs

/-- `braced`: iterate `children[0]` (the converted `struct_fields`
list), collecting key-values into an ordered map and recording whether
an ellipsis marker was seen.  Iterating a non-list `children[0]` is a
grammar-contract violation modelled as an error. -/
def braced (children : List PyVal) : Except String PyVal :=
  match children with
  | [] => .error "IndexError: list index out of range"
  | fields :: _ =>
    match fields with
    | .list fs =>
      (bracedFold ([], false) fs).map fun acc =>
        .dict [("type", .str "struct"), ("fields", .dict acc.1),
               ("truncated", .bool acc.2)]
    | _ => .error "TypeError: not iterable"

/-- `bracketed`: wrap `children[0]` as a list record. -/
def bracketed (children : List PyVal) : Except String PyVal :=
  match children with
  | items :: _ => .ok (.dict [("type", .str "list"), ("items", items)])
  | [] => .error "IndexError: list index out of range"

/-- `struct_fields`: `return children`. -/
def struct_fields (children : List PyVal) : PyVal := .list children

/-- `kv`: unpack exactly `key, value`. -/
def kv (children : List PyVal) : Except String PyVal :=
  match children with
  | [k, v] =>
    .ok (.dict [("type", .str "key_value"), ("key", .str (pyStr k)), ("value", v)])
  | _ => .error "ValueError: unpacking"

/-- `function_like`: unpack exactly `name, args`. -/
def function_like (children : List PyVal) : Except String PyVal :=
  match children with
  | [n, a] =>
    .ok (.dict [("type", .str "function"), ("name", .str (pyStr n)), ("args", a)])
  | _ => .error "ValueError: unpacking"

/-- `fd_with_path`: descriptor kept as raw text, path decoded. -/
def fd_with_path (u : String → Option Nat) (children : List PyVal) :
    Except String PyVal :=
  match children with
  | fd :: raw :: _ =>
    .ok (.dict [("type", .str "fd"), ("fd", .str (pyStr fd)),
                ("path", .str (_decode_c_string u (pyStr raw)))])
  | _ => .error "IndexError: list index out of range"

/-- `sigset`: a `NEGATED` token sets the flag, every other child is
stringified and appended. -/
def sigset (children : List PyVal) : PyVal :=
  let acc := children.foldl (fun (acc : Bool × List PyVal) ch =>
    match ch with
    | .token ty _ => if ty = "NEGATED" then (true, acc.2) else (acc.1, acc.2 ++ [.str (pyStr ch)])
    | _ => (acc.1, acc.2 ++ [.str (pyStr ch)])) (false, [])
  .dict [("type", .str "sigset"), ("negated", .bool acc.1), ("args", .list acc.2)]

/-- `c_expr`: `_decode_c_string(str(children[0]))`. -/
def c_expr (u : String → Option Nat) (children : List PyVal) : Except String PyVal :=
  match children with
  | c :: _ => .ok (.str (_decode_c_string u (pyStr c)))
  | [] => .error "IndexError: list index out of range"

/-- `plain_arg`: `_decode_c_string(str(children[0]))`. -/
def plain_arg (u : String → Option Nat) (children : List PyVal) : Except String PyVal :=
  match children with
  | c :: _ => .ok (.str (_decode_c_string u (pyStr c)))
  | [] => .error "IndexError: list index out of range"

/-- `body = first_child()`: `return children[0]`. -/
def body (children : List PyVal) : Except String PyVal :=
  match children with
  | c :: _ => .ok c
  | [] => .error "IndexError: list index out of range"

/-! ## Grammar-conformant child shapes

The lark grammar that produces the handler inputs is not part of
`src/`; the shapes below are modelled from the spec and from the
grammar fragments quoted in the handlers' docstrings. -/

/-- Modelled from the spec: the grammar production for a finished
syscall (absent from `src/`), `syscall_name "(" args? ")" "=" result
[duration]`, quoted in the `syscall` handler's docstring as the child
shapes `[name, args, result]`, `[name, result]`,
`[name, args, result, duration]`, `[name, result, duration]`, where
`name` and `result` are strings (from `syscall_name` /
`syscall_result`) and `args` is a list (from `syscall_args`). -/
def FinishedShape (ch : List PyVal) : Prop :=
  ∃ n, (∃ a r, ch = [.str n, .list a, .str r]) ∨
       (∃ r, ch = [.str n, .str r]) ∨
       (∃ a r d, ch = [.str n, .list a, .str r, d]) ∨
       (∃ r d, ch = [.str n, .str r, d])

/-- Modelled from the spec: the grammar production for a resumed line
(absent from `src/`), `RESUMED_TAG _SP? resumed_tail` with
`resumed_tail: args?) "=" result (duration)?`, quoted in the
`resumed_line` handler's docstring as tail patterns `[args, result]`
or `[result]` (result mandatory, optionally a trailing duration). -/
def ResumedShape (ch : List PyVal) : Prop :=
  ∃ t, (∃ a r, ch = [t, .list [.list a, .str r]]) ∨
       (∃ r, ch = [t, .list [.str r]]) ∨
       (∃ a r d, ch = [t, .list [.list a, .str r, d]]) ∨
       (∃ r d, ch = [t, .list [.str r, d]])

/-- `isinstance(x, list)`. -/
def isList : PyVal → Bool
  | .list _ => true
  | _ => false

/-! ## Claim C1 -/

/-- C1: for every syscall record produced by `syscall`,
`unfinished_line` or `resumed_line` on grammar-conformant children, the
`result` field is `None` exactly when the `status` field is
`"unfinished"`. -/
theorem c1_result_none_iff_unfinished :
    ∀ ch r, ((FinishedShape ch ∧ syscall ch = .ok r) ∨
             unfinished_line ch = .ok r ∨
             (ResumedShape ch ∧ resumed_line ch = .ok r)) →
    (getField r "result" = Option.some PyVal.none ↔
     getField r "status" = Option.some (PyVal.str "unfinished")) := by
  intro ch r h
  rcases h with ⟨hs, hok⟩ | hok | ⟨hs, hok⟩
  · obtain ⟨n, h1 | h1 | h1 | h1⟩ := hs
    · obtain ⟨a, rr, rfl⟩ := h1
      simp [syscall] at hok
      simp [← hok, getField, dictGet]
    · obtain ⟨rr, rfl⟩ := h1
      simp [syscall] at hok
      simp [← hok, getField, dictGet]
    · obtain ⟨a, rr, d, rfl⟩ := h1
      simp [syscall] at hok
      simp [← hok, getField, dictGet]
    · obtain ⟨rr, d, rfl⟩ := h1
      simp [syscall] at hok
      simp [← hok, getField, dictGet]
  · rcases ch with _ | ⟨c0, _ | ⟨c1, rest⟩⟩
    · simp [unfinished_line] at hok
    · simp [unfinished_line] at hok
    · cases c0 <;> simp [unfinished_line] at hok
      rename_i kvs
      rcases hn : dictGet kvs "name" with _ | n <;> rw [hn] at hok <;>
        rcases ha : dictGet kvs "args" with _ | a <;> rw [ha] at hok <;>
          simp at hok
      simp [← hok, getField, dictGet]
  · obtain ⟨t, h1 | h1 | h1 | h1⟩ := hs
    · obtain ⟨a, rr, rfl⟩ := h1
      simp [resumed_line] at hok
      simp [← hok, getField, dictGet]
    · obtain ⟨rr, rfl⟩ := h1
      simp [resumed_line] at hok
      simp [← hok, getField, dictGet]
    · obtain ⟨a, rr, d, rfl⟩ := h1
      simp [resumed_line] at hok
      simp [← hok, getField, dictGet]
    · obtain ⟨rr, d, rfl⟩ := h1
      simp [resumed_line] at hok
      simp [← hok, getField, dictGet]

/-- C1 witness: the unfinished record for `read(` has `result = None`
and `status = "unfinished"`, and the equivalence holds there. -/
theorem c1_witness :
    getField (.dict [("type", .str "syscall"), ("status", .str "unfinished"),
      ("name", .str "read"), ("args", .list []), ("result", .none)]) "result" =
        Option.some PyVal.none ↔
    getField (.dict [("type", .str "syscall"), ("status", .str "unfinished"),
      ("name", .str "read"), ("args", .list []), ("result", .none)]) "status" =
        Option.some (PyVal.str "unfinished") :=
  c1_result_none_iff_unfinished
    [.dict [("name", .str "read"), ("args", .list [])],
     .token "UNFINISHED" "<unfinished ...>"] _ (Or.inr (Or.inl rfl))

/-! ## Claim C5 -/

/-- C5: in `syscall`, the element after the name becomes the argument
list exactly when it is a (Python) list; otherwise the arguments
default to empty and that element is the result, so zero-argument
calls get `args = []` and the lone tail element as result. -/
theorem c5_args_disambiguation :
    ∀ n l x rest,
      (syscall (PyVal.str n :: PyVal.list l :: rest) =
        .ok (.dict [("type", .str "syscall"), ("status", .str "finished"),
                    ("name", .str n), ("args", .list l),
                    ("result", rest.headD .none)])) ∧
      (isList x = false →
        syscall (PyVal.str n :: x :: rest) =
          .ok (.dict [("type", .str "syscall"), ("status", .str "finished"),
                      ("name", .str n), ("args", .list []), ("result", x)])) := by
  intro n l x rest
  constructor
  · rfl
  · intro hx
    cases x <;> simp [isList] at hx <;> rfl

/-- C5 witness: `close("0")` (one non-list tail element) yields empty
args with `"0"` as result, and `open` with an argument list keeps it. -/
theorem c5_witness :
    syscall [PyVal.str "close", PyVal.str "0"] =
      .ok (.dict [("type", .str "syscall"), ("status", .str "finished"),
                  ("name", .str "close"), ("args", .list []),
                  ("result", .str "0")]) :=
  (c5_args_disambiguation "close" [] (PyVal.str "0") []).2 rfl

/-! ## Claim C4 -/

/-- C4: `resumed_line` recovers the name by matching the tag text
against `_RESUMED_RE` and never raises on a present tag: the record's
`name` field is the captured word when the pattern matches and `None`
otherwise; `<... read resumed>` captures `"read"` while `<... resumed>`
does not match. -/
theorem c4_resumed_name_recovery :
    (∀ c0 rest, ∃ r, resumed_line (c0 :: rest) = .ok r ∧
      getField r "name" = Option.some
        (match matchResumed (pyStr c0) with
         | Option.some n => PyVal.str n
         | Option.none => PyVal.none)) ∧
    matchResumed "<... read resumed>" = Option.some "read" ∧
    matchResumed "<... resumed>" = Option.none := by
  refine ⟨?_, by decide, by decide⟩
  intro c0 rest
  refine ⟨_, rfl, ?_⟩
  simp [getField, dictGet]

/-! ## Claim C2 -/

/-- `isinstance(x, dict)`. -/
def isDict : PyVal → Bool
  | .dict _ => true
  | _ => false

/-- C2 counterexample: a line whose body is a dict that is *not* one of
the three record shapes (here a struct record, `type = "struct"`) is
passed through silently with the timestamp merged in — `line` does not
raise, refuting the claim that any body outside the three recognized
record shapes raises a classification error. -/
theorem c2_counterexample :
    line [PyVal.float 0,
          PyVal.dict [("type", PyVal.str "struct"), ("fields", PyVal.dict []),
                      ("truncated", PyVal.bool false)]] =
      .ok (PyVal.dict [("type", PyVal.str "struct"), ("fields", PyVal.dict []),
                       ("truncated", PyVal.bool false),
                       ("timestamp", PyVal.float 0)]) := rfl

/-- C2 amended: `line` raises exactly when the body child is not a
dict (the `isinstance(body, dict)` check); every dict body — the three
record shapes all are dicts — is passed through with the timestamp
(and pid, for three-child lines with a non-`None` pid) merged in. -/
theorem c2_amended :
    ∀ p ts bodyv,
      (isDict bodyv = false →
        (∃ e, line [ts, bodyv] = .error e) ∧
        (∃ e, line [p, ts, bodyv] = .error e)) ∧
      (∀ kvs, bodyv = .dict kvs →
        line [ts, bodyv] = .ok (.dict (dictSet kvs "timestamp" ts)) ∧
        line [p, ts, bodyv] =
          .ok (.dict (if isNone p then dictSet kvs "timestamp" ts
                      else dictSet (dictSet kvs "timestamp" ts) "pid" p))) := by
  intro p ts bodyv
  constructor
  · intro hb
    cases bodyv <;> simp [isDict] at hb <;> exact ⟨⟨_, rfl⟩, ⟨_, rfl⟩⟩
  · rintro kvs rfl
    exact ⟨rfl, rfl⟩

/-- C2 witness: a string-valued body on a two-child line raises. -/
theorem c2_witness :
    ∃ e, line [PyVal.float 0, PyVal.str "oops"] = .error e :=
  ((c2_amended PyVal.none (PyVal.float 0) (PyVal.str "oops")).1 rfl).1

/-! ## Claim C3 -/

/-- C3 counterexample: `signal_line` on the `SIGCHLD` scenario produces
a record with *no* `"signal"` field — the signal name is stored under
`"name"` — refuting the claim that the record carries a field named
`signal`. -/
theorem c3_counterexample :
    ∃ r, signal_line [PyVal.token "SIGNAL" "SIGCHLD",
      PyVal.dict [("type", PyVal.str "struct"),
                  ("fields", PyVal.dict [("si_pid", PyVal.str "123"),
                                         ("si_status", PyVal.str "0")]),
                  ("truncated", PyVal.bool false)]] = .ok r ∧
      getField r "signal" = Option.none :=
  ⟨_, rfl, rfl⟩

/-- C3 amended: every signal line (any token and info child, with any
extra children) yields a record with type `"signal"`, status
`"signal"`, the signal name stored under the field `name` — there is
no `signal` field — and the converted info argument under `info`; for
the `--- SIGCHLD {si_pid=123, si_status=0} ---` scenario the info
struct has fields `si_pid = "123"`, `si_status = "0"` and
`truncated = false` (computed through the `kv`, `struct_fields` and
`braced` handlers). -/
theorem c3_amended :
    (∀ c0 c1 rest, ∃ r, signal_line (c0 :: c1 :: rest) = .ok r ∧
      getField r "signal" = Option.none ∧
      getField r "name" = Option.some (PyVal.str (pyStr c0)) ∧
      getField r "type" = Option.some (PyVal.str "signal") ∧
      getField r "status" = Option.some (PyVal.str "signal") ∧
      getField r "info" = Option.some c1) ∧
    kv [PyVal.token "NAME" "si_pid", PyVal.str "123"] =
      .ok (.dict [("type", .str "key_value"), ("key", .str "si_pid"),
                  ("value", .str "123")]) ∧
    kv [PyVal.token "NAME" "si_status", PyVal.str "0"] =
      .ok (.dict [("type", .str "key_value"), ("key", .str "si_status"),
                  ("value", .str "0")]) ∧
    braced [struct_fields
        [.dict [("type", .str "key_value"), ("key", .str "si_pid"),
                ("value", .str "123")],
         .dict [("type", .str "key_value"), ("key", .str "si_status"),
                ("value", .str "0")]]] =
      .ok (.dict [("type", .str "struct"),
                  ("fields", .dict [("si_pid", .str "123"),
                                    ("si_status", .str "0")]),
                  ("truncated", .bool false)]) ∧
    signal_line [PyVal.token "SIGNAL" "SIGCHLD",
      .dict [("type", .str "struct"),
             ("fields", .dict [("si_pid", .str "123"), ("si_status", .str "0")]),
             ("truncated", .bool false)]] =
      .ok (.dict [("type", .str "signal"), ("name", .str "SIGCHLD"),
                  ("status", .str "signal"),
                  ("info", .dict [("type", .str "struct"),
                                  ("fields", .dict [("si_pid", .str "123"),
                                                    ("si_status", .str "0")]),
                                  ("truncated", .bool false)])]) := by
  refine ⟨?_, rfl, rfl, rfl, rfl⟩
  intro c0 c1 rest
  refine ⟨_, rfl, ?_, ?_, ?_, ?_, ?_⟩ <;> simp [getField, dictGet]

/-! ## Claim C6 -/

@[simp] theorem ok_bind (a : α) (f : α → Except String β) :
    (Except.ok a).bind f = f a := rfl

@[simp] theorem error_bind (e : String) (f : α → Except String β) :
    (Except.error e : Except String α).bind f = .error e := rfl

@[simp] theorem map_ok (g : α → β) (a : α) :
    Except.map g (.ok a : Except String α) = .ok (g a) := rfl

@[simp] theorem map_error (g : α → β) (e : String) :
    Except.map g (.error e : Except String α) = .error e := rfl

theorem bracedFold_nil (acc : List (String × PyVal) × Bool) :
    bracedFold acc [] = .ok acc := rfl

theorem bracedFold_cons (acc : List (String × PyVal) × Bool) (f : PyVal) (fs : List PyVal) :
    bracedFold acc (f :: fs) = (bracedStep acc f).bind (fun a => bracedFold a fs) := rfl

/-- One `braced` loop step either raises (independently of the
truncated flag) or extends the map (independently of the flag) and
or-accumulates the ellipsis test into the flag. -/
theorem bracedStep_shape (m : List (String × PyVal)) (f : PyVal) :
    (∃ e, ∀ t, bracedStep (m, t) f = .error e) ∨
    (∃ m2, ∀ t, bracedStep (m, t) f = .ok (m2, t || pyEqStr f "...")) := by
  by_cases h1 : pyEqStr f "..."
  · exact Or.inr ⟨m, fun t => by simp [bracedStep, h1]⟩
  · rw [Bool.not_eq_true] at h1
    by_cases h2 : isKVCarrier f
    · match f with
      | .dict kvs =>
        rcases hk : dictGet kvs "key" with _ | k
        · exact Or.inl ⟨"KeyError: key", fun t => by simp [bracedStep, h1, h2, hk]⟩
        · match k with
          | .str ks =>
            rcases hv : dictGet kvs "value" with _ | v
            · exact Or.inl ⟨"KeyError: value",
                fun t => by simp [bracedStep, h1, h2, hk, hv]⟩
            · exact Or.inr ⟨dictSet m ks v,
                fun t => by simp [bracedStep, h1, h2, hk, hv]⟩
          | .none | .bool _ | .int _ | .float _ | .token _ _ | .list _ | .dict _ =>
            exact Or.inl ⟨"unsupported non-string key",
              fun t => by simp [bracedStep, h1, h2, hk]⟩
      | .none | .bool _ | .int _ | .float _ | .str _ | .token _ _ | .list _ =>
        simp [isKVCarrier] at h2
    · exact Or.inr ⟨dictSet m (pyStr f) f, fun t => by simp [bracedStep, h1, h2]⟩

/-- The final truncated flag of the `braced` loop is the initial flag
or-ed with "some field equals the ellipsis marker". -/
theorem bracedFold_truncated :
    ∀ fs m t m2 t2, bracedFold (m, t) fs = .ok (m2, t2) →
      t2 = (t || fs.any (fun f => pyEqStr f "...")) := by
  intro fs
  induction fs with
  | nil =>
    intro m t m2 t2 h
    rw [bracedFold_nil] at h
    simp at h
    simp [h.2.symm]
  | cons f fs ih =>
    intro m t m2 t2 h
    rw [bracedFold_cons] at h
    rcases bracedStep_shape m f with ⟨e, he⟩ | ⟨mm, hb⟩
    · rw [he t] at h
      simp at h
    · rw [hb t] at h
      rw [ok_bind] at h
      rw [ih _ _ _ _ h]
      simp [List.any_cons, Bool.or_assoc]

/-- The fields map computed by the `braced` loop does not depend on
the incoming truncated flag (errors agree as well). -/
theorem bracedFold_fst :
    ∀ fs m t t2, (bracedFold (m, t) fs).map Prod.fst =
      (bracedFold (m, t2) fs).map Prod.fst := by
  intro fs
  induction fs with
  | nil => intro m t t2; rw [bracedFold_nil, bracedFold_nil]; simp
  | cons f fs ih =>
    intro m t t2
    rw [bracedFold_cons, bracedFold_cons]
    rcases bracedStep_shape m f with ⟨e, he⟩ | ⟨mm, hb⟩
    · rw [he t, he t2]
    · rw [hb t, hb t2, ok_bind, ok_bind]
      exact ih mm (t || pyEqStr f "...") (t2 || pyEqStr f "...")

theorem bracedFold_append :
    ∀ l1 l2 (acc : List (String × PyVal) × Bool),
      bracedFold acc (l1 ++ l2) = (bracedFold acc l1).bind (fun a => bracedFold a l2) := by
  intro l1
  induction l1 with
  | nil => intro l2 acc; rw [List.nil_append, bracedFold_nil, ok_bind]
  | cons f l1 ih =>
    intro l2 acc
    rw [List.cons_append, bracedFold_cons, bracedFold_cons]
    cases bracedStep acc f with
    | error e => simp
    | ok a => simp [ih]

/-- An ellipsis field is skipped, only setting the flag. -/
theorem bracedFold_ellipsis (e : PyVal) (he : pyEqStr e "..." = true)
    (m : List (String × PyVal)) (t : Bool) (fs : List PyVal) :
    bracedFold (m, t) (e :: fs) = bracedFold (m, true) fs := by
  rw [bracedFold_cons]
  simp [bracedStep, he]

theorem dictGet_dictSet_self :
    ∀ (m : List (String × PyVal)) (k : String) (v : PyVal),
      dictGet (dictSet m k v) k = Option.some v := by
  intro m k v
  induction m with
  | nil => simp [dictSet, dictGet]
  | cons p m ih =>
    obtain ⟨k2, w⟩ := p
    by_cases h : k2 = k
    · subst h
      simp [dictSet, dictGet]
    · simp [dictSet, dictGet, h, ih]

/-- C6: for `braced`, the truncated flag is true iff an ellipsis
marker appears among the source fields; an ellipsis contributes no
field entry (dropping it leaves the fields map unchanged); duplicate
keys resolve last-write-wins, universally: a dict write makes the
later value the stored one whatever was written before, a key-value
carrier performs exactly that write, and for any key and values a
group with two same-key carriers keeps the later value; concretely
`{a=1, a=2}` keeps `"2"` and `{a=1, ...}` yields fields `{"a": "1"}`
with `truncated = true`. -/
theorem c6_struct_truncated_and_duplicates :
    (∀ fs rest r, braced (PyVal.list fs :: rest) = .ok r →
      (getField r "truncated" = Option.some (PyVal.bool true) ↔
        fs.any (fun f => pyEqStr f "...") = true)) ∧
    (∀ e fs1 fs2 rest rest2 r r2, pyEqStr e "..." = true →
      braced (PyVal.list (fs1 ++ e :: fs2) :: rest) = .ok r →
      braced (PyVal.list (fs1 ++ fs2) :: rest2) = .ok r2 →
      getField r "fields" = getField r2 "fields") ∧
    (∀ m k v, dictGet (dictSet m k v) k = Option.some v) ∧
    (∀ m t k v, bracedStep (m, t)
        (.dict [("type", .str "key_value"), ("key", .str k), ("value", v)]) =
      .ok (dictSet m k v, t)) ∧
    (∀ k v1 v2 rest,
      braced (PyVal.list
          [.dict [("type", .str "key_value"), ("key", .str k), ("value", v1)],
           .dict [("type", .str "key_value"), ("key", .str k), ("value", v2)]] :: rest) =
        .ok (.dict [("type", .str "struct"), ("fields", .dict [(k, v2)]),
                    ("truncated", .bool false)])) ∧
    (braced [PyVal.list
        [.dict [("type", .str "key_value"), ("key", .str "a"), ("value", .str "1")],
         .dict [("type", .str "key_value"), ("key", .str "a"), ("value", .str "2")]]] =
      .ok (.dict [("type", .str "struct"), ("fields", .dict [("a", .str "2")]),
                  ("truncated", .bool false)])) ∧
    (braced [PyVal.list
        [.dict [("type", .str "key_value"), ("key", .str "a"), ("value", .str "1")],
         PyVal.token "ELLIPSIS" "..."]] =
      .ok (.dict [("type", .str "struct"), ("fields", .dict [("a", .str "1")]),
                  ("truncated", .bool true)])) := by
  have hstep : ∀ m t k v, bracedStep (m, t)
      (.dict [("type", PyVal.str "key_value"), ("key", PyVal.str k), ("value", v)]) =
    .ok (dictSet m k v, t) := fun m t k v => rfl
  refine ⟨?_, ?_, fun m k v => dictGet_dictSet_self m k v, hstep, ?_, rfl, rfl⟩
  · intro fs rest r h
    simp only [braced] at h
    rcases hf : bracedFold ([], false) fs with e | ⟨m2, t2⟩
    · rw [hf] at h
      simp at h
    · rw [hf] at h
      simp at h
      have ht := bracedFold_truncated fs [] false m2 t2 hf
      simp at ht
      subst ht
      simp [← h, getField, dictGet]
  · intro e fs1 fs2 rest rest2 r r2 he h1 h2
    simp only [braced] at h1 h2
    rcases hf1 : bracedFold ([], false) (fs1 ++ e :: fs2) with e1 | ⟨m1, t1⟩
    · rw [hf1] at h1
      simp at h1
    rcases hf2 : bracedFold ([], false) (fs1 ++ fs2) with e2 | ⟨m2, t2⟩
    · rw [hf2] at h2
      simp at h2
    rw [hf1] at h1
    rw [hf2] at h2
    simp at h1 h2
    have hm : m1 = m2 := by
      rw [bracedFold_append] at hf1 hf2
      rcases ha : bracedFold ([], false) fs1 with ea | ⟨ma, ta⟩
      · rw [ha] at hf1
        simp at hf1
      rw [ha, ok_bind] at hf1 hf2
      rw [bracedFold_ellipsis e he] at hf1
      have hfst := bracedFold_fst fs2 ma true ta
      rw [hf1, hf2] at hfst
      simpa using hfst
    subst hm
    simp [← h1, ← h2, getField, dictGet]
  · intro k v1 v2 rest
    simp only [braced, bracedFold_cons, hstep, ok_bind, bracedFold_nil, map_ok]
    simp [dictSet]

/-- C6 witness: instantiating the truncated-iff part at the
`{a=1, ...}` scenario. -/
theorem c6_witness :
    getField (.dict [("type", .str "struct"), ("fields", .dict [("a", .str "1")]),
        ("truncated", .bool true)]) "truncated" = Option.some (PyVal.bool true) ↔
      ([.dict [("type", PyVal.str "key_value"), ("key", PyVal.str "a"),
               ("value", PyVal.str "1")],
        PyVal.token "ELLIPSIS" "..."].any (fun f => pyEqStr f "...") = true) :=
  c6_struct_truncated_and_duplicates.1
    [.dict [("type", .str "key_value"), ("key", .str "a"), ("value", .str "1")],
     PyVal.token "ELLIPSIS" "..."] [] _ rfl

/-! ## Claim C10 -/

/-- C10: a struct field that is neither the ellipsis marker nor a
key-value carrier does not raise: the loop keeps it as an entry whose
key is the field's string form and whose value is the field itself,
and a struct containing only such a field converts successfully. -/
theorem c10_unknown_field_kept :
    ∀ f, pyEqStr f "..." = false → isKVCarrier f = false →
      (∀ m t, bracedStep (m, t) f = .ok (dictSet m (pyStr f) f, t)) ∧
      braced [PyVal.list [f]] =
        .ok (.dict [("type", .str "struct"), ("fields", .dict [(pyStr f, f)]),
                    ("truncated", .bool false)]) := by
  intro f h1 h2
  have hstep : ∀ m t, bracedStep (m, t) f = .ok (dictSet m (pyStr f) f, t) := by
    intro m t
    simp [bracedStep, h1, h2]
  refine ⟨hstep, ?_⟩
  simp only [braced, bracedFold_cons, hstep, ok_bind, bracedFold_nil, map_ok, dictSet]

/-- C10 witness: the plain field `5` becomes the entry `"5" ↦ 5`. -/
theorem c10_witness :
    braced [PyVal.list [PyVal.int 5]] =
      .ok (.dict [("type", .str "struct"), ("fields", .dict [("5", .int 5)]),
                  ("truncated", .bool false)]) := by
  have h := (c10_unknown_field_kept (.int 5) rfl rfl).2
  simpa [pyStr] using h

/-! ## Claim C7 -/

/-- On a backslash-free input the escape walk is the identity. -/
theorem escF_clean (u : String → Option Nat) :
    ∀ l f, l.length < f → (∀ c ∈ l, c ≠ '\\') →
      escF u f .plain l = Option.some (Option.some l) := by
  intro l
  induction l with
  | nil =>
    intro f hf _
    match f with
    | g + 1 => rfl
  | cons c rest ih =>
    intro f hf hc
    match f with
    | g + 1 =>
      simp only [escF]
      rw [if_neg (hc c (by simp))]
      rw [ih g (by simp at hf; omega) (fun x hx => hc x (by simp [hx]))]
      rfl

theorem mk_toList (s : String) : String.mk s.toList = s := rfl

/-- C7 counterexample: the decoder is not idempotent — `\\n` (backslash
backslash n) decodes to the two characters `\n`, which decode again to
a newline. -/
theorem c7_counterexample :
    _decode_c_string noNames (_decode_c_string noNames "\\\\n") ≠
      _decode_c_string noNames "\\\\n" := by decide

/-- C7 amended: the decoder is the identity — hence idempotent — on
every input that contains no backslash and is not wrapped in double
quotes; idempotence fails in general (see the counterexample). -/
theorem c7_amended :
    ∀ u s, ¬(2 ≤ s.length ∧ s.front = '"' ∧ s.back = '"') →
      (∀ c ∈ s.toList, c ≠ '\\') →
      _decode_c_string u s = s ∧
      _decode_c_string u (_decode_c_string u s) = _decode_c_string u s := by
  intro u s hq hc
  have hid : _decode_c_string u s = s := by
    have hsq : stripQuotes s = s := by
      rw [stripQuotes, if_neg hq]
    rw [_decode_c_string, hsq, pyUnicodeEscape]
    by_cases hl : s.toList.all (fun c => decide (c.toNat ≤ 255))
    · rw [if_pos hl, escDecodeM,
        escF_clean u s.toList (s.toList.length + 1) (Nat.lt_succ_self _) hc]
      simp [mk_toList]
    · rw [if_neg hl]
  exact ⟨hid, by rw [hid, hid]⟩

/-- C7 witness: plain `abc` decodes to itself, idempotently. -/
theorem c7_witness :
    _decode_c_string noNames "abc" = "abc" ∧
    _decode_c_string noNames (_decode_c_string noNames "abc") =
      _decode_c_string noNames "abc" :=
  c7_amended noNames "abc" (by decide) (by decide)

/-! Universal escape-kind lemmas -/

theorem octDigit_ne (e : Char) (h : isOctDigit e = true) :
    e ≠ '\n' ∧ e ≠ '\\' ∧ e ≠ '\x27' ∧ e ≠ '"' ∧ e ≠ 'b' ∧ e ≠ 'f' ∧
    e ≠ 't' ∧ e ≠ 'n' ∧ e ≠ 'r' ∧ e ≠ 'v' ∧ e ≠ 'a' := by
  refine ⟨?_, ?_, ?_, ?_, ?_, ?_, ?_, ?_, ?_, ?_, ?_⟩ <;>
    (rintro rfl; exact absurd h (by decide))

theorem octDigit_toNat_le (e : Char) (h : isOctDigit e = true) : e.toNat ≤ 255 := by
  simp only [isOctDigit, Bool.and_eq_true, decide_eq_true_eq] at h
  have h2 : e.toNat ≤ '7'.toNat := h.2
  have h3 : '7'.toNat = 55 := rfl
  omega

theorem hexDigit_toNat_le (e : Char) (h : isHexDigit e = true) : e.toNat ≤ 255 := by
  simp only [isHexDigit, Bool.or_eq_true, Bool.and_eq_true, decide_eq_true_eq] at h
  have h9 : '9'.toNat = 57 := rfl
  have hf : 'f'.toNat = 102 := rfl
  have hF : 'F'.toNat = 70 := rfl
  rcases h with (⟨-, h2⟩ | ⟨-, h2⟩) | ⟨-, h2⟩
  · have h3 : e.toNat ≤ '9'.toNat := h2
    omega
  · have h3 : e.toNat ≤ 'f'.toNat := h2
    omega
  · have h3 : e.toNat ≤ 'F'.toNat := h2
    omega

theorem escDecodeM_oct1 (u : String → Option Nat) (e : Char) (h : isOctDigit e = true) :
    escDecodeM u .plain ['\\', e] = Option.some [Char.ofNat (octVal e)] := by
  obtain ⟨n1, n2, n3, n4, n5, n6, n7, n8, n9, n10, n11⟩ := octDigit_ne e h
  rw [escDecodeM]
  simp only [escF]
  rw [if_neg n1, if_neg n2, if_neg n3, if_neg n4, if_neg n5, if_neg n6, if_neg n7,
    if_neg n8, if_neg n9, if_neg n10, if_neg n11, if_pos h]
  rfl

theorem escDecodeM_oct2 (u : String → Option Nat) (e d2 : Char)
    (h : isOctDigit e = true) (h2 : isOctDigit d2 = true) :
    escDecodeM u .plain ['\\', e, d2] =
      Option.some [Char.ofNat (8 * octVal e + octVal d2)] := by
  obtain ⟨n1, n2, n3, n4, n5, n6, n7, n8, n9, n10, n11⟩ := octDigit_ne e h
  have hoct : octRead e [d2] = (8 * octVal e + octVal d2, []) := by
    simp [octRead, h2]
  rw [escDecodeM]
  simp only [escF]
  rw [if_neg n1, if_neg n2, if_neg n3, if_neg n4, if_neg n5, if_neg n6, if_neg n7,
    if_neg n8, if_neg n9, if_neg n10, if_neg n11, if_pos h, hoct]
  rfl

theorem escDecodeM_oct3 (u : String → Option Nat) (e d2 d3 : Char)
    (h : isOctDigit e = true) (h2 : isOctDigit d2 = true) (h3 : isOctDigit d3 = true) :
    escDecodeM u .plain ['\\', e, d2, d3] =
      Option.some [Char.ofNat (64 * octVal e + 8 * octVal d2 + octVal d3)] := by
  obtain ⟨n1, n2, n3, n4, n5, n6, n7, n8, n9, n10, n11⟩ := octDigit_ne e h
  have hoct : octRead e [d2, d3] = (64 * octVal e + 8 * octVal d2 + octVal d3, []) := by
    simp [octRead, h2, h3]
  rw [escDecodeM]
  simp only [escF]
  rw [if_neg n1, if_neg n2, if_neg n3, if_neg n4, if_neg n5, if_neg n6, if_neg n7,
    if_neg n8, if_neg n9, if_neg n10, if_neg n11, if_pos h, hoct]
  rfl

theorem escDecodeM_hex (u : String → Option Nat) (h1 h2 : Char)
    (hh1 : isHexDigit h1 = true) (hh2 : isHexDigit h2 = true) :
    escDecodeM u .plain ['\\', 'x', h1, h2] =
      Option.some [Char.ofNat (16 * hexVal h1 + hexVal h2)] := by
  have hx : hexN 2 0 [h1, h2] = Option.some (16 * hexVal h1 + hexVal h2, []) := by
    simp [hexN, hh1, hh2]
  rw [escDecodeM]
  simp only [escF]
  rw [hx]
  rfl

theorem escDecodeM_u4 (u : String → Option Nat) (a b c d : Char)
    (ha : isHexDigit a = true) (hb : isHexDigit b = true)
    (hc : isHexDigit c = true) (hd : isHexDigit d = true)
    (hs : isScalar (4096 * hexVal a + 256 * hexVal b + 16 * hexVal c + hexVal d) = true) :
    escDecodeM u .plain ['\\', 'u', a, b, c, d] =
      Option.some [Char.ofNat (4096 * hexVal a + 256 * hexVal b + 16 * hexVal c + hexVal d)] := by
  have hx : hexN 4 0 [a, b, c, d] =
      Option.some (4096 * hexVal a + 256 * hexVal b + 16 * hexVal c + hexVal d, []) := by
    simp [hexN, ha, hb, hc, hd]
    omega
  rw [escDecodeM]
  simp only [escF]
  rw [hx]
  simp only [if_pos hs]
  rfl

set_option maxHeartbeats 2000000 in
theorem escDecodeM_U8 (u : String → Option Nat) (a b c d a2 b2 c2 d2 : Char)
    (ha : isHexDigit a = true) (hb : isHexDigit b = true)
    (hc : isHexDigit c = true) (hd : isHexDigit d = true)
    (ha2 : isHexDigit a2 = true) (hb2 : isHexDigit b2 = true)
    (hc2 : isHexDigit c2 = true) (hd2 : isHexDigit d2 = true)
    (hs : isScalar (268435456 * hexVal a + 16777216 * hexVal b + 1048576 * hexVal c +
      65536 * hexVal d + 4096 * hexVal a2 + 256 * hexVal b2 + 16 * hexVal c2 + hexVal d2) =
      true) :
    escDecodeM u .plain ['\\', 'U', a, b, c, d, a2, b2, c2, d2] =
      Option.some [Char.ofNat (268435456 * hexVal a + 16777216 * hexVal b +
        1048576 * hexVal c + 65536 * hexVal d + 4096 * hexVal a2 + 256 * hexVal b2 +
        16 * hexVal c2 + hexVal d2)] := by
  have hx : hexN 8 0 [a, b, c, d, a2, b2, c2, d2] =
      Option.some (268435456 * hexVal a + 16777216 * hexVal b + 1048576 * hexVal c +
        65536 * hexVal d + 4096 * hexVal a2 + 256 * hexVal b2 + 16 * hexVal c2 +
        hexVal d2, []) := by
    simp [hexN, ha, hb, hc, hd, ha2, hb2, hc2, hd2]
    omega
  rw [escDecodeM]
  simp only [escF]
  rw [hx]
  simp only [if_pos hs]
  rfl

theorem escF_named_walk (u : String → Option Nat) :
    ∀ nm g acc l, (∀ c ∈ nm, c ≠ '\x7d') →
      escF u (g + nm.length) (.named acc) (nm ++ l) =
        escF u g (.named (nm.reverse ++ acc)) l := by
  intro nm
  induction nm with
  | nil => intro g acc l _; simp
  | cons c nm ih =>
    intro g acc l hc
    have hlen : g + (c :: nm).length = (g + nm.length) + 1 := by simp; omega
    rw [hlen, List.cons_append]
    simp only [escF]
    rw [if_neg (hc c (by simp))]
    rw [ih g (c :: acc) l (fun x hx => hc x (by simp [hx]))]
    simp [List.reverse_cons, List.append_assoc]

theorem escDecodeM_named (u : String → Option Nat) (nm : List Char) (v : Nat)
    (hc : ∀ c ∈ nm, c ≠ '\x7d') (hv : u (String.mk nm) = Option.some v)
    (hs : isScalar v = true) :
    escDecodeM u .plain ('\\' :: 'N' :: '\x7b' :: (nm ++ ['\x7d'])) =
      Option.some [Char.ofNat v] := by
  rw [escDecodeM]
  have hlen : ('\\' :: 'N' :: '\x7b' :: (nm ++ ['\x7d'])).length + 1 = (4 + nm.length) + 1 := by
    simp
    omega
  rw [hlen]
  simp only [escF]
  rw [escF_named_walk u nm 4 [] ['\x7d'] hc]
  simp only [List.append_nil]
  simp only [escF]
  rw [List.reverse_reverse, hv]
  simp only [if_pos hs]
  rfl

theorem escDecodeM_literal (u : String → Option Nat) (e : Char)
    (hm : e ∉ (['\n', '\\', '\x27', '"', 'b', 'f', 't', 'n', 'r', 'v', 'a',
      'x', 'u', 'U', 'N'] : List Char))
    (ho : isOctDigit e = false) :
    escDecodeM u .plain ['\\', e] = Option.some ['\\', e] := by
  simp only [List.mem_cons, not_or] at hm
  obtain ⟨n1, n2, n3, n4, n5, n6, n7, n8, n9, n10, n11, n12, n13, n14, n15, -⟩ := hm
  rw [escDecodeM]
  simp only [escF]
  rw [if_neg n1, if_neg n2, if_neg n3, if_neg n4, if_neg n5, if_neg n6, if_neg n7,
    if_neg n8, if_neg n9, if_neg n10, if_neg n11,
    if_neg (by simp [ho] : ¬isOctDigit e = true),
    if_neg n12, if_neg n13, if_neg n14, if_neg n15]
  rfl

theorem mk_backslash_not_quoted (t : List Char) :
    ¬(2 ≤ (String.mk ('\\' :: t)).length ∧ (String.mk ('\\' :: t)).front = '"' ∧
      (String.mk ('\\' :: t)).back = '"') := by
  rintro ⟨-, hf, -⟩
  have h2 : ('\\' : Char) = '"' := hf
  exact absurd h2 (by decide)

theorem decode_via (u : String → Option Nat) (t res : List Char)
    (h255 : ('\\' :: t).all (fun c => decide (c.toNat ≤ 255)) = true)
    (hesc : escDecodeM u .plain ('\\' :: t) = Option.some res) :
    _decode_c_string u (String.mk ('\\' :: t)) = String.mk res := by
  have hq : stripQuotes (String.mk ('\\' :: t)) = String.mk ('\\' :: t) := by
    rw [stripQuotes, if_neg (mk_backslash_not_quoted t)]
  have hu : pyUnicodeEscape u (String.mk ('\\' :: t)) = Option.some (String.mk res) := by
    have ht : (String.mk ('\\' :: t)).toList = '\\' :: t := rfl
    rw [pyUnicodeEscape, ht, if_pos h255, hesc]
    rfl
  rw [_decode_c_string, hq, hu]


/-! ## Claim C8 -/

/-- C8 counterexample: `\a` is outside the claim's escape set, so the
claim says it is left literal and unmodified; the decoder (Python's
`unicode_escape`) converts it to the BEL character instead. -/
theorem c8_counterexample :
    _decode_c_string noNames "\\a" ≠ "\\a" := by decide

theorem all255_cons (c : Char) (t : List Char) (hc : c.toNat ≤ 255)
    (ht : t.all (fun c => decide (c.toNat ≤ 255)) = true) :
    (c :: t).all (fun c => decide (c.toNat ≤ 255)) = true := by
  simp [List.all_cons, hc, ht]

/-- C8 amended: the decoder interprets the escapes of CPython's
`unicode_escape` codec, each proven over all escape values: one-, two-
and three-digit octal over all octal digits, `\xHH` over all hex digit
pairs, `\uXXXX` and `\UXXXXXXXX` over all hex digits denoting a scalar
value, `\N` over every braced name the Unicode database resolves to a
scalar, and — beyond the claimed set — the fixed escapes `\"`, `\\`,
`\n`, `\t`, `\r`, `\'`, `\a`, `\b`, `\f`, `\v` and backslash–newline
line continuation; a backslash followed by any latin1 character
outside the recognized escape heads is left literal.  The quoted
scenario strings decode as claimed. -/
theorem c8_amended :
    (∀ uu e, isOctDigit e = true →
      _decode_c_string uu (String.mk ['\\', e]) = String.mk [Char.ofNat (octVal e)]) ∧
    (∀ uu e d2, isOctDigit e = true → isOctDigit d2 = true →
      _decode_c_string uu (String.mk ['\\', e, d2]) =
        String.mk [Char.ofNat (8 * octVal e + octVal d2)]) ∧
    (∀ uu e d2 d3, isOctDigit e = true → isOctDigit d2 = true → isOctDigit d3 = true →
      _decode_c_string uu (String.mk ['\\', e, d2, d3]) =
        String.mk [Char.ofNat (64 * octVal e + 8 * octVal d2 + octVal d3)]) ∧
    (∀ uu h1 h2, isHexDigit h1 = true → isHexDigit h2 = true →
      _decode_c_string uu (String.mk ['\\', 'x', h1, h2]) =
        String.mk [Char.ofNat (16 * hexVal h1 + hexVal h2)]) ∧
    (∀ uu a b c d, isHexDigit a = true → isHexDigit b = true →
      isHexDigit c = true → isHexDigit d = true →
      isScalar (4096 * hexVal a + 256 * hexVal b + 16 * hexVal c + hexVal d) = true →
      _decode_c_string uu (String.mk ['\\', 'u', a, b, c, d]) =
        String.mk [Char.ofNat (4096 * hexVal a + 256 * hexVal b + 16 * hexVal c + hexVal d)]) ∧
    (∀ uu a b c d a2 b2 c2 d2, isHexDigit a = true → isHexDigit b = true →
      isHexDigit c = true → isHexDigit d = true → isHexDigit a2 = true →
      isHexDigit b2 = true → isHexDigit c2 = true → isHexDigit d2 = true →
      isScalar (268435456 * hexVal a + 16777216 * hexVal b + 1048576 * hexVal c +
        65536 * hexVal d + 4096 * hexVal a2 + 256 * hexVal b2 + 16 * hexVal c2 +
        hexVal d2) = true →
      _decode_c_string uu (String.mk ['\\', 'U', a, b, c, d, a2, b2, c2, d2]) =
        String.mk [Char.ofNat (268435456 * hexVal a + 16777216 * hexVal b +
          1048576 * hexVal c + 65536 * hexVal d + 4096 * hexVal a2 + 256 * hexVal b2 +
          16 * hexVal c2 + hexVal d2)]) ∧
    (∀ uu (nm : List Char) v, (∀ c ∈ nm, c ≠ '\x7d') → (∀ c ∈ nm, c.toNat ≤ 255) →
      uu (String.mk nm) = Option.some v → isScalar v = true →
      _decode_c_string uu (String.mk ('\\' :: 'N' :: '\x7b' :: (nm ++ ['\x7d']))) =
        String.mk [Char.ofNat v]) ∧
    (∀ uu e, e.toNat ≤ 255 →
      e ∉ (['\n', '\\', '\x27', '"', 'b', 'f', 't', 'n', 'r', 'v', 'a',
        'x', 'u', 'U', 'N'] : List Char) →
      isOctDigit e = false →
      _decode_c_string uu (String.mk ['\\', e]) = String.mk ['\\', e]) ∧
    _decode_c_string noNames "\"\\x41\\x42\"" = "AB" ∧
    _decode_c_string noNames "\"line1\\nline2\"" = "line1\nline2" ∧
    _decode_c_string noNames "\\\"" = "\"" ∧
    _decode_c_string noNames "\\\\" = "\\" ∧
    _decode_c_string noNames "\\n" = "\n" ∧
    _decode_c_string noNames "\\t" = "\t" ∧
    _decode_c_string noNames "\\r" = "\x0d" ∧
    _decode_c_string noNames "\\0" = "\x00" ∧
    _decode_c_string noNames "\\101" = "A" ∧
    _decode_c_string noNames "\\x41" = "A" ∧
    _decode_c_string noNames "\\\x27" = "\x27" ∧
    _decode_c_string noNames "\\a" = "\x07" ∧
    _decode_c_string noNames "\\b" = "\x08" ∧
    _decode_c_string noNames "\\f" = "\x0c" ∧
    _decode_c_string noNames "\\v" = "\x0b" ∧
    _decode_c_string noNames "\\u0041" = "A" ∧
    _decode_c_string noNames "\\U00000041" = "A" ∧
    _decode_c_string
      (fun nm => if nm = "BULLET" then Option.some 0x2022 else Option.none)
      "\\N\x7bBULLET\x7d" = "\u2022" ∧
    _decode_c_string noNames "a\\\nb" = "ab" ∧
    _decode_c_string noNames "\\q" = "\\q" ∧
    _decode_c_string noNames "\\8" = "\\8" := by
  refine ⟨?_, ?_, ?_, ?_, ?_, ?_, ?_, ?_, ?_⟩
  · intro uu e h
    exact decode_via uu [e] _
      (all255_cons '\\' _ (by decide) (all255_cons e _ (octDigit_toNat_le e h) rfl))
      (escDecodeM_oct1 uu e h)
  · intro uu e d2 h h2
    exact decode_via uu [e, d2] _
      (all255_cons '\\' _ (by decide) (all255_cons e _ (octDigit_toNat_le e h)
        (all255_cons d2 _ (octDigit_toNat_le d2 h2) rfl)))
      (escDecodeM_oct2 uu e d2 h h2)
  · intro uu e d2 d3 h h2 h3
    exact decode_via uu [e, d2, d3] _
      (all255_cons '\\' _ (by decide) (all255_cons e _ (octDigit_toNat_le e h)
        (all255_cons d2 _ (octDigit_toNat_le d2 h2)
          (all255_cons d3 _ (octDigit_toNat_le d3 h3) rfl))))
      (escDecodeM_oct3 uu e d2 d3 h h2 h3)
  · intro uu h1 h2 hh1 hh2
    exact decode_via uu ['x', h1, h2] _
      (all255_cons '\\' _ (by decide) (all255_cons 'x' _ (by decide)
        (all255_cons h1 _ (hexDigit_toNat_le h1 hh1)
          (all255_cons h2 _ (hexDigit_toNat_le h2 hh2) rfl))))
      (escDecodeM_hex uu h1 h2 hh1 hh2)
  · intro uu a b c d ha hb hc hd hs
    exact decode_via uu ['u', a, b, c, d] _
      (all255_cons '\\' _ (by decide) (all255_cons 'u' _ (by decide)
        (all255_cons a _ (hexDigit_toNat_le a ha)
          (all255_cons b _ (hexDigit_toNat_le b hb)
            (all255_cons c _ (hexDigit_toNat_le c hc)
              (all255_cons d _ (hexDigit_toNat_le d hd) rfl))))))
      (escDecodeM_u4 uu a b c d ha hb hc hd hs)
  · intro uu a b c d a2 b2 c2 d2 ha hb hc hd ha2 hb2 hc2 hd2 hs
    exact decode_via uu ['U', a, b, c, d, a2, b2, c2, d2] _
      (all255_cons '\\' _ (by decide) (all255_cons 'U' _ (by decide)
        (all255_cons a _ (hexDigit_toNat_le a ha)
          (all255_cons b _ (hexDigit_toNat_le b hb)
            (all255_cons c _ (hexDigit_toNat_le c hc)
              (all255_cons d _ (hexDigit_toNat_le d hd)
                (all255_cons a2 _ (hexDigit_toNat_le a2 ha2)
                  (all255_cons b2 _ (hexDigit_toNat_le b2 hb2)
                    (all255_cons c2 _ (hexDigit_toNat_le c2 hc2)
                      (all255_cons d2 _ (hexDigit_toNat_le d2 hd2) rfl))))))))))
      (escDecodeM_U8 uu a b c d a2 b2 c2 d2 ha hb hc hd ha2 hb2 hc2 hd2 hs)
  · intro uu nm v hc h255 hv hs
    have hall : ('N' :: '\x7b' :: (nm ++ ['\x7d'])).all
        (fun c => decide (c.toNat ≤ 255)) = true := by
      refine all255_cons 'N' _ (by decide) (all255_cons '\x7b' _ (by decide) ?_)
      rw [List.all_eq_true]
      intro x hx
      rw [List.mem_append] at hx
      rcases hx with hx | hx
      · exact decide_eq_true (h255 x hx)
      · rw [List.mem_singleton] at hx
        subst hx
        decide
    exact decode_via uu ('N' :: '\x7b' :: (nm ++ ['\x7d'])) _
      (all255_cons '\\' _ (by decide) hall)
      (escDecodeM_named uu nm v hc hv hs)
  · intro uu e h255 hm ho
    exact decode_via uu [e] _
      (all255_cons '\\' _ (by decide) (all255_cons e _ h255 rfl))
      (escDecodeM_literal uu e hm ho)
  · decide

/-- C8 witness: the three-digit octal clause instantiated at `\101`
(giving `A`) and the literal-fallback clause at `\q`. -/
theorem c8_witness :
    _decode_c_string noNames "\\101" = "A" ∧
    _decode_c_string noNames "\\q" = "\\q" :=
  ⟨(c8_amended.2.2.1 noNames '1' '0' '1' rfl rfl rfl).trans (by decide),
   (c8_amended.2.2.2.2.2.2.2.1 noNames 'q' (by decide) (by decide) rfl).trans (by decide)⟩

/-! ## Claim C9 -/

/-- C9: the decoder is total and never raises: with both-sides quotes
and length at least 2 exactly one leading and one trailing quote are
stripped (otherwise the input is left as is, a one-sided quote staying
in place), and any decoding failure returns the original input — with
its quotes — unchanged; a success returns the decoded text.  The
closing conjunct shows the malformed escape `"\x4"` falling back to
the entire original. -/
theorem c9_decoder_total_fallback :
    (∀ u s,
      (pyUnicodeEscape u (stripQuotes s) = Option.none →
        _decode_c_string u s = s) ∧
      (∀ r, pyUnicodeEscape u (stripQuotes s) = Option.some r →
        _decode_c_string u s = r) ∧
      ((2 ≤ s.length ∧ s.front = '"' ∧ s.back = '"') →
        stripQuotes s = (s.drop 1).dropRight 1) ∧
      (¬(2 ≤ s.length ∧ s.front = '"' ∧ s.back = '"') →
        stripQuotes s = s)) ∧
    _decode_c_string noNames "\"\\x4\"" = "\"\\x4\"" := by
  refine ⟨?_, by decide⟩
  intro u s
  refine ⟨fun h => ?_, fun r h => ?_, fun h => ?_, fun h => ?_⟩
  · rw [_decode_c_string, h]
  · rw [_decode_c_string, h]
  · rw [stripQuotes, if_pos h]
  · rw [stripQuotes, if_neg h]

/-- C9 witness: the quote-stripping branch at `"ab"` and the fallback
branch at the truncated hex escape `\x4`. -/
theorem c9_witness :
    stripQuotes "\"ab\"" = ("\"ab\"".drop 1).dropRight 1 ∧
    _decode_c_string noNames "\\x4" = "\\x4" :=
  ⟨(c9_decoder_total_fallback.1 noNames "\"ab\"").2.2.1 (by decide),
   (c9_decoder_total_fallback.1 noNames "\\x4").1 (by decide)⟩

end StraceParser